import Mathlib

/-!
Shallow embedding of the hngrep program (src/main.go): the Hacker News
story-grep pipeline.  The data model (`Item`, `fetchResult`, `searchResult`),
the category-selection switch in `main`, the `fetch` goroutine body and the
`search` collector closure are translated from the Go source.  Go's
`regexp.MatchString` is modelled on the syntactic subset of patterns used by
this development (literals, grouping, alternation and the repetition
operators), compiling to Mathlib's `RegularExpression` so that matching has
the standard regular-language semantics.
-/

namespace Hngrep

/-- Go struct `item` (src/main.go).  `template.HTML` is a string type. -/
structure Item where
  ID : Int
  Deleted : Bool
  «Type» : String
  By : String
  Time : Int
  Text : String
  Dead : Bool
  Parent : Int
  Poll : Int
  Kids : List Int
  URL : String
  Score : Int
  Title : String
  Parts : List Int
  Descendants : Int
deriving Repr, DecidableEq

/-- The zero value of Go's `item` type (`var item item`). -/
def zeroItem : Item := ⟨0, false, "", "", 0, "", false, 0, 0, [], "", 0, "", [], 0⟩

/-- Go struct `fetchResult`: an embedded `item` and an `error` (nil = none). -/
structure FetchResult where
  item : Item
  err : Option String
deriving Repr, DecidableEq

/-- Go struct `searchResult`. -/
structure SearchResult where
  Total : Nat
  Items : List Item
deriving Repr, DecidableEq

/-- The three category flags declared with `flag.Bool` in src/main.go. -/
structure Flags where
  news : Bool
  top : Bool
  best : Bool
deriving Repr, DecidableEq

/-- The default values of the three flags: `flag.Bool("new", true, ...)`,
`flag.Bool("top", false, ...)`, `flag.Bool("best", false, ...)`. -/
def defaultFlags : Flags := ⟨true, false, false⟩

/-- The `switch` in `main` choosing the story category: it tests `*news`
first, then `*top`, then `*best`; `which` stays the zero value `""` if no
case is true. -/
def whichCategory (f : Flags) : String :=
  if f.news then "new" else if f.top then "top" else if f.best then "best" else ""

/-- Abbreviation for regular expressions over characters. -/
abbrev Rex := RegularExpression Char

/-- The repetition operators of the modelled pattern syntax. -/
def isQuantifier (c : Char) : Bool := c = '*' || c = '+' || c = '?'

/-- Metacharacters of Go regexp syntax outside the modelled subset; the
model rejects them rather than silently treating them as literals. -/
def isUnsupportedMeta (c : Char) : Bool :=
  c = '[' || c = ']' || c = '\x7b' || c = '\x7d' || c = '^' || c = '$' ||
  c = '.' || c = '\\'

/-- Apply one repetition operator to a parsed atom. -/
def applyQuantifier (c : Char) (r : Rex) : Rex :=
  if c = '*' then RegularExpression.star r
  else if c = '+' then RegularExpression.comp r (RegularExpression.star r)
  else RegularExpression.plus r RegularExpression.epsilon

mutual

/-- Parse an alternation: branches separated by vertical bars. -/
def parseAlt : Nat → List Char → Except String (Rex × List Char)
  | 0, _ => Except.error "pattern too complex"
  | n + 1, cs => do
    let (r, rest) ← parseCat n cs
    match rest with
    | '|' :: rest2 => do
      let (r2, rest3) ← parseAlt n rest2
      Except.ok (RegularExpression.plus r r2, rest3)
    | _ => Except.ok (r, rest)

/-- Parse a concatenation of repeated atoms; stops at the end of the
input, at a closing parenthesis or at an alternation bar. -/
def parseCat : Nat → List Char → Except String (Rex × List Char)
  | 0, _ => Except.error "pattern too complex"
  | n + 1, cs =>
    match cs with
    | [] => Except.ok (RegularExpression.epsilon, [])
    | ')' :: _ => Except.ok (RegularExpression.epsilon, cs)
    | '|' :: _ => Except.ok (RegularExpression.epsilon, cs)
    | _ => do
      let (r, rest) ← parseRep n cs
      let (r2, rest2) ← parseCat n rest
      Except.ok (RegularExpression.comp r r2, rest2)

/-- Parse one atom followed by at most one repetition operator; a second
repetition operator immediately after is an error, as in Go. -/
def parseRep : Nat → List Char → Except String (Rex × List Char)
  | 0, _ => Except.error "pattern too complex"
  | n + 1, cs => do
    let (r, rest) ← parseAtom n cs
    match rest with
    | c :: rest2 =>
      if isQuantifier c then
        match rest2 with
        | c2 :: _ =>
          if isQuantifier c2 then Except.error "invalid nested repetition operator"
          else Except.ok (applyQuantifier c r, rest2)
        | [] => Except.ok (applyQuantifier c r, [])
      else Except.ok (r, c :: rest2)
    | [] => Except.ok (r, [])

/-- Parse a parenthesised group or a literal character. -/
def parseAtom : Nat → List Char → Except String (Rex × List Char)
  | 0, _ => Except.error "pattern too complex"
  | n + 1, cs =>
    match cs with
    | [] => Except.error "unexpected end of pattern"
    | '(' :: rest =>
      match parseAlt n rest with
      | Except.error e => Except.error e
      | Except.ok (r, rest2) =>
        match rest2 with
        | ')' :: rest3 => Except.ok (r, rest3)
        | _ => Except.error "missing closing )"
    | c :: rest =>
      if c = ')' then Except.error "unexpected )"
      else if isQuantifier c then Except.error "missing argument to repetition operator"
      else if isUnsupportedMeta c then Except.error "unsupported pattern syntax"
      else Except.ok (RegularExpression.char c, rest)

end

/-- Compile a whole pattern string; input left over after the top-level
alternation can only start with a stray closing parenthesis. -/
def parseRegex (p : String) : Except String Rex :=
  match parseAlt (4 * p.length + 4) p.data with
  | Except.error e => Except.error e
  | Except.ok (r, []) => Except.ok r
  | Except.ok (_, _ :: _) => Except.error "unexpected )"

/-- Search semantics: the compiled expression matches somewhere inside the
string, i.e. some contiguous slice `(cs.drop i).take j` is in its language. -/
def rexContains (r : Rex) (cs : List Char) : Bool :=
  (List.range (cs.length + 1)).any fun i =>
    (List.range (cs.length + 1)).any fun j =>
      RegularExpression.rmatch r ((cs.drop i).take j)

/-- Model of Go `regexp.MatchString(pattern, s)` on the supported pattern
subset: returns the pair (matched, error), where a compile error yields
`(false, some e)` and a successful compile searches for a match anywhere
in `s`. -/
def matchString (pattern s : String) : Bool × Option String :=
  match parseRegex pattern with
  | Except.error e => (false, some e)
  | Except.ok r => (rexContains r s.data, none)

/-- The receive loop of the `search` closure in `main` (src/main.go):
`outcomes` is the sequence of `fetchResult` values the collector receives
from the channel, one iteration per requested story; `items` is the
accumulator slice.  On a non-nil error the loop returns that error at once;
otherwise the ignored-error match `matched, _ := regexp.MatchString(...)`
decides whether the item is appended. -/
def searchLoop (pattern : String) : List FetchResult → List Item → Except String SearchResult
  | [], items => Except.ok ⟨items.length, items⟩
  | r :: rest, items =>
    match r.err with
    | some e => Except.error e
    | none =>
      if (matchString pattern r.item.Title).1 then
        searchLoop pattern rest (items ++ [r.item])
      else
        searchLoop pattern rest items

/-- The `search` closure: starts with a nil `items` slice and consumes one
outcome per requested story id. -/
def search (pattern : String) (outcomes : List FetchResult) : Except String SearchResult :=
  searchLoop pattern outcomes []

/-- The items of the error-free outcomes whose titles match the pattern, in
arrival order. -/
def matchedItems (pattern : String) (outcomes : List FetchResult) : List Item :=
  (outcomes.filter fun r => (matchString pattern r.item.Title).1).map FetchResult.item

/-- The environment one `fetch` goroutine runs against: its single HTTP get
either fails with a transport error, or succeeds with a body whose JSON
decode fails (leaving the partially decoded zero-value item) or succeeds. -/
inductive FetchEnv
  | transportErr (msg : String)
  | decodeErr (msg : String) (decodedSoFar : Item)
  | okItem (it : Item)
deriving Repr, DecidableEq

/-- The `fetch` function of src/main.go, returning the list of values it
sends on the channel and whether it panics.  Neither error branch returns
after its send: after a transport error `resp` is nil, so the deferred
`resp.Body.Close()` dereferences a nil pointer (panic after one send);
after a decode error execution falls through to the final unconditional
send, so the goroutine sends twice. -/
def fetch : FetchEnv → List FetchResult × Bool
  | FetchEnv.transportErr msg => ([⟨zeroItem, some ("fetch: " ++ msg)⟩], true)
  | FetchEnv.decodeErr msg d => ([⟨zeroItem, some ("fetch: " ++ msg)⟩, ⟨d, none⟩], false)
  | FetchEnv.okItem it => ([⟨it, none⟩], false)

/-- Helper for concrete batches: a story item with the given id and title,
all other fields default. -/
def mkStory (id : Int) (title : String) : Item :=
  ⟨id, false, "story", "", 0, "", false, 0, 0, [], "", 0, title, [], 0⟩

/-- The fixed mocked batch of the spec's functional test. -/
def fixedBatch : List FetchResult :=
  [⟨mkStory 1 "Go 2.0 released", none⟩,
   ⟨mkStory 2 "Rust async update", none⟩,
   ⟨mkStory 3 "Go tooling survey", none⟩]

/-- The compiled form of the pattern "Go" under `parseRegex`. -/
def goRex : Rex :=
  RegularExpression.comp (RegularExpression.char 'G')
    (RegularExpression.comp (RegularExpression.char 'o') RegularExpression.epsilon)

/-- The regular expression a pattern of plain literal characters compiles to. -/
def literalRex : List Char → Rex
  | [] => RegularExpression.epsilon
  | c :: cs => RegularExpression.comp (RegularExpression.char c) (literalRex cs)

/-- Compiled form of the pattern "zzz", which matches none of the fixed batch
titles. -/
def zzzRex : Rex := literalRex ['z', 'z', 'z']

/-- The fixed mocked batch arriving in the opposite order. -/
def fixedBatchRev : List FetchResult :=
  [⟨mkStory 3 "Go tooling survey", none⟩,
   ⟨mkStory 2 "Rust async update", none⟩,
   ⟨mkStory 1 "Go 2.0 released", none⟩]

/-- The items of the fixed batch whose titles match "Go", in arrival order. -/
def goMatched : List Item :=
  [mkStory 1 "Go 2.0 released", mkStory 3 "Go tooling survey"]

/-!  Helper lemmas about the collector. -/

/-- On an error-free outcome list the receive loop returns the accumulator
extended with the matching items, and the total is its length. -/
theorem searchLoop_ok (p : String) (l : List FetchResult)
    (h : ∀ r ∈ l, r.err = none) : ∀ acc : List Item,
    searchLoop p l acc =
      Except.ok ⟨(acc ++ matchedItems p l).length, acc ++ matchedItems p l⟩ := by
  induction l with
  | nil => intro acc; simp [searchLoop, matchedItems]
  | cons r rest ih =>
    intro acc
    have hr : r.err = none := h r (List.mem_cons_self r rest)
    have hrest : ∀ x ∈ rest, x.err = none := fun x hx => h x (List.mem_cons_of_mem r hx)
    by_cases hm : (matchString p r.item.Title).1 = true
    · simp only [searchLoop, hr, if_pos hm, ih hrest]
      simp [matchedItems, List.filter_cons, hm]
    · simp only [searchLoop, hr, Bool.not_eq_true] at hm ⊢
      rw [hm]
      simp only [Bool.false_eq_true, if_false, ih hrest]
      simp [matchedItems, List.filter_cons, hm]

/-- The collector on an error-free outcome list: a `SearchResult` whose items
are the matching ones and whose total is their number. -/
theorem search_ok (p : String) (l : List FetchResult)
    (h : ∀ r ∈ l, r.err = none) :
    search p l = Except.ok ⟨(matchedItems p l).length, matchedItems p l⟩ := by
  simpa [search] using searchLoop_ok p l h []

/-- Whatever the accumulator, if the receive loop hits an outcome with a
non-nil error after an error-free prefix, it returns that error. -/
theorem searchLoop_error (p : String) (pre post : List FetchResult)
    (bad : FetchResult) (e : String) (hbad : bad.err = some e)
    (hpre : ∀ r ∈ pre, r.err = none) : ∀ acc : List Item,
    searchLoop p (pre ++ bad :: post) acc = Except.error e := by
  induction pre with
  | nil => intro acc; simp [searchLoop, hbad]
  | cons r rest ih =>
    intro acc
    have hr : r.err = none := hpre r (List.mem_cons_self r rest)
    have hrest : ∀ x ∈ rest, x.err = none := fun x hx => hpre x (List.mem_cons_of_mem r hx)
    by_cases hm : (matchString p r.item.Title).1 = true
    · simp only [List.cons_append, searchLoop, hr, if_pos hm]
      exact ih hrest _
    · simp only [Bool.not_eq_true] at hm
      simp only [List.cons_append, searchLoop, hr, hm, Bool.false_eq_true, if_false]
      exact ih hrest _

/-- The executable anywhere-search agrees with the declarative slice
decomposition into the language of the expression. -/
theorem rexContains_iff (r : Rex) (cs : List Char) :
    rexContains r cs = true ↔
      ∃ pre mid suf : List Char, cs = pre ++ mid ++ suf ∧ mid ∈ r.matches' := by
  unfold rexContains
  simp only [List.any_eq_true, List.mem_range]
  constructor
  · rintro ⟨i, _, j, _, hm⟩
    refine ⟨cs.take i, (cs.drop i).take j, (cs.drop i).drop j, ?_, ?_⟩
    · rw [List.append_assoc, List.take_append_drop, List.take_append_drop]
    · exact (r.rmatch_iff_matches' _).1 hm
  · rintro ⟨pre, mid, suf, hcs, hmem⟩
    have hlen : cs.length = pre.length + (mid.length + suf.length) := by
      rw [hcs]; simp
    refine ⟨pre.length, by omega, mid.length, by omega, ?_⟩
    have hdrop : cs.drop pre.length = mid ++ suf := by
      rw [hcs, List.append_assoc, List.drop_left]
    rw [hdrop, List.take_left]
    exact (r.rmatch_iff_matches' _).2 hmem

/-!  Claim theorems. -/

/-- Claim C1 (code bug): the claim says each launched fetcher delivers exactly
one outcome to the channel.  In the code, neither error branch of `fetch`
returns after its send: on a decode error the goroutine falls through and
sends a second, error-free outcome (two sends), and on a transport error it
sends once and then panics dereferencing the nil response.  This theorem
evaluates `fetch` at both failing inputs. -/
theorem fetchOutcomeCount :
    (fetch (FetchEnv.decodeErr "invalid character" zeroItem)).1.length = 2 ∧
    (fetch (FetchEnv.transportErr "connection refused")).2 = true :=
  ⟨rfl, rfl⟩

/-- Claim C2, counterexample: the pattern "(" is rejected by the regular
expression compiler, yet the run does not fail — the collector ignores the
compile error and returns a successful empty `SearchResult` on the fixed
batch, exactly the silent no-match behaviour the claim rules out. -/
theorem invalidPatternRunSucceeds :
    parseRegex "(" = Except.error "missing closing )" ∧
    search "(" fixedBatch = Except.ok ⟨0, []⟩ :=
  ⟨rfl, rfl⟩

/-- Claim C2 as amended: for every invocation whose PATTERN does not compile,
the match error is discarded (`matched, _ :=`), every title counts as a
non-match, and on an error-free batch the run succeeds with an empty
`SearchResult` instead of failing. -/
theorem invalidPatternNoMatch (p e : String) (l : List FetchResult)
    (hp : parseRegex p = Except.error e) (hok : ∀ r ∈ l, r.err = none) :
    search p l = Except.ok ⟨0, []⟩ := by
  have h := search_ok p l hok
  have hempty : matchedItems p l = [] := by
    unfold matchedItems
    have hf : (l.filter fun r => (matchString p r.item.Title).1) = [] :=
      List.filter_eq_nil_iff.2 (fun r _ => by simp [matchString, hp])
    rw [hf]
    rfl
  rw [hempty] at h
  simpa using h

/-- Witness for the amended claim C2 at the invalid pattern "(" and the fixed
batch. -/
theorem invalidPatternNoMatchWitness :
    search "(" fixedBatchRev = Except.ok ⟨0, []⟩ :=
  invalidPatternNoMatch "(" "missing closing )" fixedBatchRev rfl (by decide)

/-- Claim C3: if the collector receives an outcome carrying an error after an
error-free prefix, it aborts at once with exactly that error, whatever
outcomes are still in flight behind it (`post` does not affect the result),
and no `SearchResult` is produced. -/
theorem searchFailFast (p : String) (pre post : List FetchResult)
    (bad : FetchResult) (e : String) (hbad : bad.err = some e)
    (hpre : ∀ r ∈ pre, r.err = none) :
    search p (pre ++ bad :: post) = Except.error e :=
  searchLoop_error p pre post bad e hbad hpre []

/-- Witness for claim C3: a batch whose second outcome is a transport error
fails with that error, ignoring the outcome behind it. -/
theorem searchFailFastWitness :
    search "Go" ([⟨mkStory 1 "Go 2.0 released", none⟩] ++
      ⟨zeroItem, some "fetch: connection refused"⟩ ::
      [⟨mkStory 3 "Go tooling survey", none⟩]) =
    Except.error "fetch: connection refused" :=
  searchFailFast "Go" [⟨mkStory 1 "Go 2.0 released", none⟩]
    [⟨mkStory 3 "Go tooling survey", none⟩]
    ⟨zeroItem, some "fetch: connection refused"⟩ "fetch: connection refused"
    rfl (by decide)

/-- Whatever the accumulator, any successful return of the receive loop has
its total equal to the number of its items. -/
theorem searchLoop_total (p : String) (l : List FetchResult) :
    ∀ acc res, searchLoop p l acc = Except.ok res →
      res.Total = res.Items.length := by
  induction l with
  | nil =>
    intro acc res h
    simp only [searchLoop, Except.ok.injEq] at h
    rw [← h]
  | cons r rest ih =>
    intro acc res h
    cases hr : r.err with
    | some e => simp [searchLoop, hr] at h
    | none =>
      by_cases hm : (matchString p r.item.Title).1 = true
      · simp only [searchLoop, hr, if_pos hm] at h
        exact ih _ _ h
      · simp only [Bool.not_eq_true] at hm
        simp only [searchLoop, hr, hm, Bool.false_eq_true, if_false] at h
        exact ih _ _ h

/-- Claim C4: every `SearchResult` the collector returns has `Total` equal to
the length of its `Items` list. -/
theorem searchTotalInvariant (p : String) (l : List FetchResult)
    (res : SearchResult) (h : search p l = Except.ok res) :
    res.Total = res.Items.length :=
  searchLoop_total p l [] res h

/-- Witness for claim C4 at the fixed batch and pattern "Go". -/
theorem searchTotalInvariantWitness :
    search "Go" fixedBatch = Except.ok ⟨2, goMatched⟩ ∧
    (SearchResult.mk 2 goMatched).Total = (SearchResult.mk 2 goMatched).Items.length :=
  ⟨rfl, searchTotalInvariant "Go" fixedBatch ⟨2, goMatched⟩ rfl⟩

/-- Claim C5: on two arrival orders of the same error-free batch the collector
returns results with the same `Total` and the same multiset of matched item
ids — the aggregate is deterministic regardless of outcome arrival order. -/
theorem searchOrderIndependent (p : String) (l1 l2 : List FetchResult)
    (hperm : l1.Perm l2) (hok : ∀ r ∈ l1, r.err = none) :
    ∃ r1 r2 : SearchResult, search p l1 = Except.ok r1 ∧
      search p l2 = Except.ok r2 ∧ r1.Total = r2.Total ∧
      (r1.Items.map Item.ID).Perm (r2.Items.map Item.ID) := by
  have hok2 : ∀ r ∈ l2, r.err = none := fun r hr => hok r (hperm.mem_iff.2 hr)
  have hm : (matchedItems p l1).Perm (matchedItems p l2) :=
    (hperm.filter _).map _
  exact ⟨_, _, search_ok p l1 hok, search_ok p l2 hok2, hm.length_eq, hm.map Item.ID⟩

/-- Witness for claim C5: the fixed batch and its reversed arrival order. -/
theorem searchOrderIndependentWitness :
    ∃ r1 r2 : SearchResult, search "Go" fixedBatch = Except.ok r1 ∧
      search "Go" fixedBatchRev = Except.ok r2 ∧ r1.Total = r2.Total ∧
      (r1.Items.map Item.ID).Perm (r2.Items.map Item.ID) :=
  searchOrderIndependent "Go" fixedBatch fixedBatchRev (by decide) (by decide)

/-- Claim C6: on any arrival order of the fixed three-story batch with the
pattern "Go", the collector succeeds with `Total = 2` and the matched item
ids are exactly 1 and 3 in some order. -/
theorem fixedBatchGoSearch (l : List FetchResult) (hperm : l.Perm fixedBatch) :
    ∃ res : SearchResult, search "Go" l = Except.ok res ∧ res.Total = 2 ∧
      (res.Items.map Item.ID).Perm [1, 3] := by
  have hokF : ∀ r ∈ fixedBatch, r.err = none := by decide
  have hok : ∀ r ∈ l, r.err = none := fun r hr => hokF r (hperm.subset hr)
  have hm : (matchedItems "Go" l).Perm (matchedItems "Go" fixedBatch) :=
    (hperm.filter _).map _
  have hfixed : matchedItems "Go" fixedBatch = goMatched := by decide
  refine ⟨_, search_ok "Go" l hok, ?_, ?_⟩
  · have hlen := hm.length_eq
    rw [hfixed] at hlen
    simpa using hlen
  · have hids := hm.map Item.ID
    rw [hfixed] at hids
    simpa using hids

/-- Witness for claim C6 at the canonical arrival order. -/
theorem fixedBatchGoSearchWitness :
    ∃ res : SearchResult, search "Go" fixedBatch = Except.ok res ∧
      res.Total = 2 ∧ (res.Items.map Item.ID).Perm [1, 3] :=
  fixedBatchGoSearch fixedBatch (List.Perm.refl fixedBatch)

/-- Claim C7: for every pattern the compiler accepts, the match predicate
returns true exactly when the compiled expression matches anywhere in the
title — some contiguous slice of the title belongs to its language under the
standard regular-language semantics — so it is a search, not an anchored
full-string match, and character comparison is literal (case-sensitive). -/
theorem matchAnywhereSemantics (p s : String) (re : Rex)
    (h : parseRegex p = Except.ok re) :
    (matchString p s).1 = true ↔
      ∃ pre mid suf : List Char, s.data = pre ++ mid ++ suf ∧
        mid ∈ re.matches' := by
  simp only [matchString, h]
  exact rexContains_iff re s.data

/-- Witness for claim C7 at the pattern "Go" and a title containing "Go" in
the middle. -/
theorem matchAnywhereSemanticsWitness :
    (matchString "Go" "xGoy").1 = true ↔
      ∃ pre mid suf : List Char, ("xGoy" : String).data = pre ++ mid ++ suf ∧
        mid ∈ goRex.matches' :=
  matchAnywhereSemantics "Go" "xGoy" goRex rfl

/-- Claim C8: on an error-free batch whose titles the (compilable) pattern
matches nowhere, the collector succeeds with a zero-total, empty-items
result rather than failing. -/
theorem noMatchEmptySuccess (p : String) (re : Rex) (l : List FetchResult)
    (hre : parseRegex p = Except.ok re) (hok : ∀ r ∈ l, r.err = none)
    (hnm : ∀ r ∈ l, (matchString p r.item.Title).1 = false) :
    search p l = Except.ok ⟨0, []⟩ := by
  have h := search_ok p l hok
  have hempty : matchedItems p l = [] := by
    unfold matchedItems
    have hf : (l.filter fun r => (matchString p r.item.Title).1) = [] :=
      List.filter_eq_nil_iff.2 (fun r hr => by simp [hnm r hr])
    rw [hf]
    rfl
  rw [hempty] at h
  simpa using h

/-- Witness for claim C8: the pattern "zzz" compiles and matches no title of
the fixed batch. -/
theorem noMatchEmptySuccessWitness :
    search "zzz" fixedBatch = Except.ok ⟨0, []⟩ :=
  noMatchEmptySuccess "zzz" zzzRex fixedBatch rfl (by decide) (by decide)

/-- Claim C9: the `-new` flag defaults to true and the category switch tests
it first, so every invocation that does not set `-new=false` resolves the
"new" category whatever `-top` and `-best` are. -/
theorem newFlagPriority :
    defaultFlags.news = true ∧
    ∀ t b : Bool, whichCategory ⟨true, t, b⟩ = "new" :=
  ⟨rfl, fun _ _ => rfl⟩

/-- Claim C10: on an empty resolved id list the collector consumes no
outcomes and returns a successful empty `SearchResult`. -/
theorem emptyBatchSuccess (p : String) : search p [] = Except.ok ⟨0, []⟩ :=
  rfl

end Hngrep
